import Mathlib

/-!
Verification of the medicare-policy-chatbot core against its source.

The development shallowly embeds, from the Python sources:
  - the tiered chunk extractor `chunk_doc` and the ingestion main loop
    (src/embedding.py),
  - the point upsert keyed by chunk id (src/embedding.py, upsert_points),
  - the plan manifest service (src/plan_service.py),
  - the visual grounding query of the hybrid searcher (src/hybrid_search.py),
  - the visual-grounding endpoint and the page annotator (src/service.py).

External collaborators (the docling chunker and document model, the OpenAI
embedder, the Qdrant store, uuid.uuid5) are modelled as parameters or as
plain data carried by the document structures: each is a pure function of
its input from the point of view of this code, so a parameter `u : String
→ String` stands for the uuid5 digest of a name string and the ranked
answer of the store to a query is a parameter list of points.
-/

namespace MedicareBot

/-! ### Last-write-wins string dictionary

Python dict assignment in a loop (plan_service.PlanService.__init__ filling
_hash_to_plan and _plans) and a Qdrant upsert keyed by point id
(embedding.upsert_points) both realize a keyed last-write-wins update; one
fold models both. -/

def dictUpdate {α : Type} (init : String → Option α) (kvs : List (String × α)) :
    String → Option α :=
  kvs.foldl (fun acc kv => fun k => if k = kv.1 then some kv.2 else acc k) init

/-- Value of the last pair carrying key k, if any. -/
def lastAssoc {α : Type} (kvs : List (String × α)) (k : String) : Option α :=
  match kvs with
  | [] => none
  | kv :: rest =>
    match lastAssoc rest k with
    | some v => some v
    | none => if k = kv.1 then some kv.2 else none

theorem dictUpdate_eq_lastAssoc {α : Type} (init : String → Option α)
    (kvs : List (String × α)) (k : String) :
    dictUpdate init kvs k = ((lastAssoc kvs k).orElse fun _ => init k) := by
  induction kvs generalizing init with
  | nil => simp [dictUpdate, lastAssoc, Option.orElse]
  | cons kv rest ih =>
    show dictUpdate (fun k => if k = kv.1 then some kv.2 else init k) rest k = _
    rw [ih]
    simp only [lastAssoc]
    cases h : lastAssoc rest k with
    | some v => simp [Option.orElse]
    | none =>
      by_cases hk : k = kv.1 <;> simp [hk, Option.orElse]

theorem dictUpdate_idem {α : Type} (init : String → Option α)
    (kvs : List (String × α)) :
    dictUpdate (dictUpdate init kvs) kvs = dictUpdate init kvs := by
  funext k
  rw [dictUpdate_eq_lastAssoc, dictUpdate_eq_lastAssoc]
  cases h : lastAssoc kvs k with
  | some v => simp [Option.orElse]
  | none => simp [Option.orElse, dictUpdate_eq_lastAssoc, h]

/-! ### Chunk extraction (src/embedding.py, chunk_doc)

chunk_doc is a generator over a loaded DoclingDocument.  The document
model keeps exactly what the code reads from the external document:

  - the sequence of structural chunks the external HybridChunker would
    produce, each with its contextualized text; the code wraps the whole
    strategy-1 loop in one try/except, so an item is marked with the
    failure mode the run would hit there: the generator itself raising
    while producing the item (genFail), or the loop body raising after
    the item was produced and chunk_count was already incremented
    (bodyFail);
  - the tables, each with the table_text its export chain would produce
    and a flag for the per-table try/except catching a raise;
  - the markdown export text and a flag for export_to_markdown raising.

uuid.uuid5 with the fixed NAMESPACE_DNS namespace is a pure function of
the name string; it is the parameter u below. -/

inductive SFail where
  | ok : SFail
  | genFail : SFail
  | bodyFail : SFail
deriving DecidableEq, Repr

structure SItem where
  ctext : String
  mode : SFail
deriving DecidableEq, Repr

structure TableItem where
  text : String
  fails : Bool
deriving DecidableEq, Repr

structure MdExport where
  content : String
  fails : Bool
deriving DecidableEq, Repr

structure Doc where
  binaryHash : String
  structItems : List SItem
  tables : List TableItem
  md : MdExport
deriving DecidableEq, Repr

/-- Strategy 1 of chunk_doc: the for-loop over chunker.chunk(doc) inside one
try/except.  The accumulator i is both the running enumerate index and the
running chunk_count: the two coincide because chunk_count is incremented
exactly once per generated item and the loop stops at the first failure.
A genFail ends the loop before the increment, a bodyFail after it.
Returns (chunk_count, yielded (id, text) pairs). -/
def strategy1 (u : String → String) (h : String) :
    List SItem → Nat → Nat × List (String × String)
  | [], i => (i, [])
  | ⟨_, SFail.genFail⟩ :: _, i => (i, [])
  | ⟨_, SFail.bodyFail⟩ :: _, i => (i + 1, [])
  | ⟨ct, SFail.ok⟩ :: rest, i =>
    let r := strategy1 u h rest (i + 1)
    (r.1, (u (h ++ "-" ++ toString i), ct) :: r.2)

/-- Python str.strip(): drop whitespace from both ends. -/
def pyStrip (s : String) : String :=
  ⟨((s.data.dropWhile Char.isWhitespace).reverse.dropWhile Char.isWhitespace).reverse⟩

/-- The per-table emission test of strategy 2:
`if table_text and len(table_text.strip()) > 10`. -/
def tableQualifies (t : TableItem) : Prop :=
  t.text ≠ "" ∧ 10 < (pyStrip t.text).length

instance (t : TableItem) : Decidable (tableQualifies t) := by
  unfold tableQualifies; infer_instance

/-- Strategy 2 of chunk_doc: the for-loop over enumerate(doc.tables) with a
per-table try/except.  j is the running enumerate index, c the running
chunk_count.  A failing table is skipped; a qualifying one increments
chunk_count and yields. -/
def strategy2 (u : String → String) (h : String) :
    List TableItem → Nat → Nat → Nat × List (String × String)
  | [], _, c => (c, [])
  | t :: rest, j, c =>
    if t.fails then strategy2 u h rest (j + 1) c
    else if tableQualifies t then
      let r := strategy2 u h rest (j + 1) (c + 1)
      (r.1, (u (h ++ "-table-" ++ toString j), t.text) :: r.2)
    else strategy2 u h rest (j + 1) c

/-- Strategy 3 of chunk_doc: the markdown-export fallback inside its own
try/except, emitting a single chunk
`if md_content and len(md_content.strip()) > 50`. -/
def strategy3 (u : String → String) (h : String) (md : MdExport) :
    List (String × String) :=
  if md.fails then []
  else if md.content ≠ "" ∧ 50 < (pyStrip md.content).length then
    [(u (h ++ "-markdown"), md.content)]
  else []

/-- The chunks strategy 1 contributes to chunk_doc, with its final
chunk_count. -/
def chunkDocS1 (u : String → String) (d : Doc) : Nat × List (String × String) :=
  strategy1 u d.binaryHash d.structItems 0

/-- The chunks strategy 2 contributes: it runs only when
`chunk_count == 0 and len(doc.tables) > 0`. -/
def chunkDocS2 (u : String → String) (d : Doc) : Nat × List (String × String) :=
  if (chunkDocS1 u d).1 = 0 ∧ 0 < d.tables.length then
    strategy2 u d.binaryHash d.tables 0 (chunkDocS1 u d).1
  else ((chunkDocS1 u d).1, [])

/-- The chunks strategy 3 contributes: it runs only when
`chunk_count == 0` still holds after strategies 1 and 2. -/
def chunkDocS3 (u : String → String) (d : Doc) : List (String × String) :=
  if (chunkDocS2 u d).1 = 0 then strategy3 u d.binaryHash d.md else []

/-- chunk_doc: the generator yields the chunks of the strategies in program
order. -/
def chunkDoc (u : String → String) (d : Doc) : List (String × String) :=
  (chunkDocS1 u d).2 ++ (chunkDocS2 u d).2 ++ chunkDocS3 u d

/-- The ingestion main loop of embedding.py: chunk each document, skip a
document whose chunk list is empty, otherwise embed and upsert its chunks.
The observable outcome of the loop is which documents got processed and with
which chunks. -/
def ingestRun (u : String → String) (docs : List Doc) :
    List (String × List (String × String)) :=
  docs.filterMap fun d =>
    let cs := chunkDoc u d
    if cs.isEmpty then none else some (d.binaryHash, cs)

/-- upsert_points keyed by point id over a store mapping id to payload:
Qdrant overwrites the point carrying an existing id. -/
def upsertPoints (store : String → Option String)
    (pts : List (String × String)) : String → Option String :=
  dictUpdate store pts

/-! ### Counting and identifier lemmas for the strategies -/

theorem strategy1_len_le (u : String → String) (h : String) (items : List SItem) :
    ∀ i : Nat, (strategy1 u h items i).2.length + i ≤ (strategy1 u h items i).1 := by
  induction items with
  | nil => intro i; simp [strategy1]
  | cons item rest ih =>
    obtain ⟨ct, mode⟩ := item
    intro i
    cases mode with
    | ok =>
      have h2 := ih (i + 1)
      simp only [strategy1, List.length_cons]
      omega
    | genFail => simp [strategy1]
    | bodyFail => simp [strategy1]

theorem strategy2_len_le (u : String → String) (h : String) (tables : List TableItem) :
    ∀ j c : Nat, (strategy2 u h tables j c).2.length + c ≤ (strategy2 u h tables j c).1 := by
  induction tables with
  | nil => intro j c; simp [strategy2]
  | cons t rest ih =>
    intro j c
    by_cases hf : t.fails
    · simpa [strategy2, hf] using ih (j + 1) c
    · by_cases hq : tableQualifies t
      · have h2 := ih (j + 1) (c + 1)
        simp [strategy2, hf, hq]
        omega
      · simpa [strategy2, hf, hq] using ih (j + 1) c

theorem strategy1_get_id (u : String → String) (h : String) (items : List SItem) :
    ∀ (i j : Nat) (hj : j < (strategy1 u h items i).2.length),
      ((strategy1 u h items i).2.get ⟨j, hj⟩).1 = u (h ++ "-" ++ toString (i + j)) := by
  induction items with
  | nil => intro i j hj; simp [strategy1] at hj
  | cons item rest ih =>
    obtain ⟨ct, mode⟩ := item
    intro i j hj
    cases mode with
    | ok =>
      cases j with
      | zero => simp [strategy1]
      | succ j2 =>
        have hj2 : j2 < (strategy1 u h rest (i + 1)).2.length := by
          have := hj
          simp only [strategy1, List.length_cons] at this
          omega
        have hrec := ih (i + 1) j2 hj2
        have harith : i + (j2 + 1) = (i + 1) + j2 := by omega
        simp only [strategy1, List.get_cons_succ, harith]
        exact hrec
    | genFail => simp [strategy1] at hj
    | bodyFail => simp [strategy1] at hj

theorem strategy2_mem_id (u : String → String) (h : String) (tables : List TableItem) :
    ∀ (j c : Nat) (x : String × String), x ∈ (strategy2 u h tables j c).2 →
      ∃ jj, jj < tables.length ∧ x.1 = u (h ++ "-table-" ++ toString (j + jj)) := by
  induction tables with
  | nil => intro j c x hx; simp [strategy2] at hx
  | cons t rest ih =>
    intro j c x hx
    simp only [strategy2] at hx
    by_cases hf : t.fails = true
    · rw [if_pos hf] at hx
      obtain ⟨jj, hjj, hid⟩ := ih (j + 1) c x hx
      refine ⟨jj + 1, Nat.succ_lt_succ hjj, ?_⟩
      have harith : j + (jj + 1) = (j + 1) + jj := by omega
      rw [harith]
      exact hid
    · rw [if_neg hf] at hx
      by_cases hq : tableQualifies t
      · rw [if_pos hq] at hx
        simp only [List.mem_cons] at hx
        cases hx with
        | inl hx0 =>
          refine ⟨0, Nat.succ_pos _, ?_⟩
          rw [hx0]
          simp
        | inr hx1 =>
          obtain ⟨jj, hjj, hid⟩ := ih (j + 1) (c + 1) x hx1
          refine ⟨jj + 1, Nat.succ_lt_succ hjj, ?_⟩
          have harith : j + (jj + 1) = (j + 1) + jj := by omega
          rw [harith]
          exact hid
      · rw [if_neg hq] at hx
        obtain ⟨jj, hjj, hid⟩ := ih (j + 1) c x hx
        refine ⟨jj + 1, Nat.succ_lt_succ hjj, ?_⟩
        have harith : j + (jj + 1) = (j + 1) + jj := by omega
        rw [harith]
        exact hid

theorem strategy3_mem (u : String → String) (h : String) (md : MdExport)
    (x : String × String) (hx : x ∈ strategy3 u h md) :
    x = (u (h ++ "-markdown"), md.content) := by
  unfold strategy3 at hx
  by_cases hf : md.fails
  · rw [if_pos hf] at hx
    simp at hx
  · rw [if_neg hf] at hx
    by_cases hq : md.content ≠ "" ∧ 50 < (pyStrip md.content).length
    · rw [if_pos hq] at hx
      simpa using hx
    · rw [if_neg hq] at hx
      simp at hx

/-! ### Example inputs used to instantiate the claims -/

def uEx : String → String := fun s => "uuid5:" ++ s

def dEx1 : Doc :=
  { binaryHash := "h1"
    structItems := [{ ctext := "alpha text", mode := SFail.ok }]
    tables := [{ text := "tiny", fails := false }]
    md := { content := "", fails := false } }

def dEx3 : Doc :=
  { binaryHash := "h3"
    structItems := []
    tables := []
    md := { content := "coverage details coverage details coverage details yes", fails := false } }

/-- Claim C1: chunk ids are a deterministic function of the document
fingerprint and the chunk ordinal or marker: the i-th structural chunk
gets uuid5 of "{hash}-{i}", the j-th table chunk uuid5 of
"{hash}-table-{j}", the markdown fallback uuid5 of "{hash}-markdown";
chunk_doc is a pure function of the document, so re-running it yields the
same ids, and re-upserting the same chunks leaves the point store
unchanged (idempotent re-ingestion). -/
theorem claim_C1 (u : String → String) (d : Doc) :
    (∀ (i : Nat) (hi : i < (chunkDocS1 u d).2.length),
        ((chunkDocS1 u d).2.get ⟨i, hi⟩).1 = u (d.binaryHash ++ "-" ++ toString i))
    ∧ (∀ x ∈ (chunkDocS2 u d).2, ∃ j, j < d.tables.length ∧
        x.1 = u (d.binaryHash ++ "-table-" ++ toString j))
    ∧ (∀ x ∈ chunkDocS3 u d, x.1 = u (d.binaryHash ++ "-markdown"))
    ∧ (∀ store, upsertPoints (upsertPoints store (chunkDoc u d)) (chunkDoc u d)
        = upsertPoints store (chunkDoc u d)) := by
  refine ⟨?_, ?_, ?_, ?_⟩
  · intro i hi
    simpa using strategy1_get_id u d.binaryHash d.structItems 0 i hi
  · intro x hx
    unfold chunkDocS2 at hx
    by_cases hcond : (chunkDocS1 u d).1 = 0 ∧ 0 < d.tables.length
    · rw [if_pos hcond] at hx
      obtain ⟨jj, hjj, hid⟩ := strategy2_mem_id u d.binaryHash d.tables 0 _ x hx
      exact ⟨jj, hjj, by simpa using hid⟩
    · rw [if_neg hcond] at hx
      simp at hx
  · intro x hx
    unfold chunkDocS3 at hx
    by_cases hc : (chunkDocS2 u d).1 = 0
    · rw [if_pos hc] at hx
      rw [strategy3_mem u d.binaryHash d.md x hx]
    · rw [if_neg hc] at hx
      simp at hx
  · intro store
    exact dictUpdate_idem store (chunkDoc u d)

theorem claim_C1_witness :
    ∃ hlen : 0 < (chunkDocS1 uEx dEx1).2.length,
      ((chunkDocS1 uEx dEx1).2.get ⟨0, hlen⟩).1
          = uEx (dEx1.binaryHash ++ "-" ++ toString 0)
      ∧ upsertPoints (upsertPoints (fun _ => none) (chunkDoc uEx dEx1)) (chunkDoc uEx dEx1)
          = upsertPoints (fun _ => none) (chunkDoc uEx dEx1) :=
  ⟨by decide, (claim_C1 uEx dEx1).1 0 (by decide),
    (claim_C1 uEx dEx1).2.2.2 (fun _ => none)⟩

/-- Claim C2: the strategies tier strictly.  If strategy 1 yields at least
one chunk, strategies 2 and 3 contribute nothing and chunk_doc returns
exactly the strategy-1 chunks; and strategy 3 contributes a chunk only
when strategies 1 and 2 both yielded zero chunks. -/
theorem claim_C2 (u : String → String) (d : Doc) :
    ((chunkDocS1 u d).2 ≠ [] →
        (chunkDocS2 u d).2 = [] ∧ chunkDocS3 u d = []
          ∧ chunkDoc u d = (chunkDocS1 u d).2)
    ∧ (chunkDocS3 u d ≠ [] →
        (chunkDocS1 u d).2 = [] ∧ (chunkDocS2 u d).2 = []) := by
  constructor
  · intro hne
    have hlen := strategy1_len_le u d.binaryHash d.structItems 0
    have hpos : 0 < (chunkDocS1 u d).2.length := List.length_pos.mpr hne
    have hc1 : ¬ (chunkDocS1 u d).1 = 0 := by
      unfold chunkDocS1 at hpos ⊢; omega
    have h2 : chunkDocS2 u d = ((chunkDocS1 u d).1, []) := by
      unfold chunkDocS2
      rw [if_neg]
      intro hcond
      exact hc1 hcond.1
    have h3 : chunkDocS3 u d = [] := by
      unfold chunkDocS3
      rw [h2, if_neg hc1]
    refine ⟨by rw [h2], h3, ?_⟩
    unfold chunkDoc
    rw [h2, h3]
    simp
  · intro hne
    have hc2 : (chunkDocS2 u d).1 = 0 := by
      by_contra hc
      unfold chunkDocS3 at hne
      rw [if_neg hc] at hne
      exact hne rfl
    have hlen1 := strategy1_len_le u d.binaryHash d.structItems 0
    by_cases hcond : (chunkDocS1 u d).1 = 0 ∧ 0 < d.tables.length
    · have h2 : chunkDocS2 u d = strategy2 u d.binaryHash d.tables 0 (chunkDocS1 u d).1 := by
        unfold chunkDocS2; rw [if_pos hcond]
      have hlen2 := strategy2_len_le u d.binaryHash d.tables 0 (chunkDocS1 u d).1
      rw [h2] at hc2
      constructor
      · have : (chunkDocS1 u d).2.length = 0 := by
          unfold chunkDocS1 at *; omega
        exact List.eq_nil_of_length_eq_zero this
      · rw [h2]
        have : (strategy2 u d.binaryHash d.tables 0 (chunkDocS1 u d).1).2.length = 0 := by
          omega
        exact List.eq_nil_of_length_eq_zero this
    · have h2 : chunkDocS2 u d = ((chunkDocS1 u d).1, []) := by
        unfold chunkDocS2; rw [if_neg hcond]
      rw [h2] at hc2
      constructor
      · have : (chunkDocS1 u d).2.length = 0 := by
          unfold chunkDocS1 at *; omega
        exact List.eq_nil_of_length_eq_zero this
      · rw [h2]

theorem strategy1_okPrefix_bodyFail (u : String → String) (h : String) :
    ∀ (pre : List SItem), (∀ it ∈ pre, it.mode = SFail.ok) →
    ∀ (ct : String) (rest : List SItem) (i : Nat),
      (strategy1 u h (pre ++ ⟨ct, SFail.bodyFail⟩ :: rest) i).1 = i + pre.length + 1
      ∧ (strategy1 u h (pre ++ ⟨ct, SFail.bodyFail⟩ :: rest) i).2.length = pre.length := by
  intro pre
  induction pre with
  | nil => intro _ ct rest i; simp [strategy1]
  | cons p pre2 ih =>
    intro hok ct rest i
    obtain ⟨pct, pmode⟩ := p
    have hpm : pmode = SFail.ok := hok ⟨pct, pmode⟩ (by simp)
    subst hpm
    have hrec := ih (fun it hit => hok it (List.mem_cons_of_mem _ hit)) ct rest (i + 1)
    simp only [List.cons_append, strategy1, List.length_cons, List.append_eq]
    constructor
    · rw [hrec.1]; omega
    · rw [hrec.2]

theorem strategy2_mem_of_ok (u : String → String) (h : String) :
    ∀ (tables : List TableItem) (j0 c jj : Nat) (hjj : jj < tables.length),
      (tables.get ⟨jj, hjj⟩).fails = false →
      tableQualifies (tables.get ⟨jj, hjj⟩) →
      (u (h ++ "-table-" ++ toString (j0 + jj)), (tables.get ⟨jj, hjj⟩).text)
        ∈ (strategy2 u h tables j0 c).2 := by
  intro tables
  induction tables with
  | nil => intro j0 c jj hjj hfails hq; exact absurd hjj (by simp)
  | cons t rest ih =>
    intro j0 c jj hjj hfails hq
    cases jj with
    | zero =>
      simp only [List.get] at hfails hq
      simp only [strategy2]
      rw [if_neg (by simp [hfails]), if_pos hq]
      simp
    | succ jj2 =>
      have hjj2 : jj2 < rest.length := Nat.lt_of_succ_lt_succ hjj
      have hfails2 : (rest.get ⟨jj2, hjj2⟩).fails = false := hfails
      have hq2 : tableQualifies (rest.get ⟨jj2, hjj2⟩) := hq
      have harith : j0 + (jj2 + 1) = (j0 + 1) + jj2 := by omega
      by_cases hf : t.fails = true
      · simp only [strategy2]
        rw [if_pos hf]
        have hmem := ih (j0 + 1) c jj2 hjj2 hfails2 hq2
        rw [show (((t :: rest).get ⟨jj2 + 1, hjj⟩).text) = ((rest.get ⟨jj2, hjj2⟩).text) from rfl]
        rw [harith]
        exact hmem
      · by_cases hqt : tableQualifies t
        · simp only [strategy2]
          rw [if_neg hf, if_pos hqt]
          have hmem := ih (j0 + 1) (c + 1) jj2 hjj2 hfails2 hq2
          rw [show (((t :: rest).get ⟨jj2 + 1, hjj⟩).text) = ((rest.get ⟨jj2, hjj2⟩).text) from rfl]
          rw [harith]
          exact List.mem_cons_of_mem _ hmem
        · simp only [strategy2]
          rw [if_neg hf, if_neg hqt]
          have hmem := ih (j0 + 1) c jj2 hjj2 hfails2 hq2
          rw [show (((t :: rest).get ⟨jj2 + 1, hjj⟩).text) = ((rest.get ⟨jj2, hjj2⟩).text) from rfl]
          rw [harith]
          exact hmem

theorem strategy3_cases (u : String → String) (h : String) (md : MdExport) :
    strategy3 u h md = []
    ∨ (strategy3 u h md = [(u (h ++ "-markdown"), md.content)]
        ∧ md.content ≠ "" ∧ 50 < (pyStrip md.content).length) := by
  unfold strategy3
  by_cases hf : md.fails
  · left; rw [if_pos hf]
  · rw [if_neg hf]
    by_cases hq : md.content ≠ "" ∧ 50 < (pyStrip md.content).length
    · right; rw [if_pos hq]; exact ⟨rfl, hq⟩
    · left; rw [if_neg hq]

theorem claim_C2_witness :
    ((chunkDocS1 uEx dEx1).2 ≠ []
      ∧ ((chunkDocS2 uEx dEx1).2 = [] ∧ chunkDocS3 uEx dEx1 = []
          ∧ chunkDoc uEx dEx1 = (chunkDocS1 uEx dEx1).2))
    ∧ (chunkDocS3 uEx dEx3 ≠ []
      ∧ ((chunkDocS1 uEx dEx3).2 = [] ∧ (chunkDocS2 uEx dEx3).2 = [])) :=
  ⟨⟨by decide, (claim_C2 uEx dEx1).1 (by decide)⟩,
    ⟨by decide, (claim_C2 uEx dEx3).2 (by decide)⟩⟩

/-- Document refuting claim C5: three structural chunks, the second one
failing in the loop body.  The try/except of strategy 1 wraps the whole
for-loop, so the failure ends the loop and the third chunk is lost. -/
def dEx5 : Doc :=
  { binaryHash := "h5"
    structItems :=
      [{ ctext := "first chunk", mode := SFail.ok },
        { ctext := "broken chunk", mode := SFail.bodyFail },
        { ctext := "third chunk", mode := SFail.ok }]
    tables := [{ text := "plan name and coverage table", fails := false }]
    md := { content := "", fails := false } }

/-- Claim C5 counterexample: in the structural strategy a per-item failure
is NOT skipped with the remaining siblings still completing.  In dEx5 the
third structural item is fine, yet chunk_doc emits only the first chunk:
the strategy-1 exception handler sits outside the for-loop, so the body
failure on item 1 aborts items after it (and, chunk_count having been
incremented, the table fallback is not consulted either). -/
theorem claim_C5_counterexample :
    (dEx5.structItems.get ⟨2, by decide⟩).mode = SFail.ok
    ∧ chunkDoc uEx dEx5 = [(uEx "h5-0", "first chunk")] := by
  constructor
  · decide
  · decide

/-- Claim C5 as amended: a failure on one table of the table fallback is
caught and only that table skipped, the remaining tables still being
processed; in the structural strategy a per-item failure ends emission by that
strategy, keeping exactly the chunks of the items before the
failure; and a per-item failure never causes fall-through to a
less-preferred strategy once the current strategy has counted at least
one chunk. -/
theorem claim_C5_amended (u : String → String) (d : Doc) :
    (∀ (jj : Nat) (hjj : jj < d.tables.length),
        (chunkDocS1 u d).1 = 0 →
        (d.tables.get ⟨jj, hjj⟩).fails = false →
        tableQualifies (d.tables.get ⟨jj, hjj⟩) →
        (u (d.binaryHash ++ "-table-" ++ toString jj), (d.tables.get ⟨jj, hjj⟩).text)
          ∈ chunkDoc u d)
    ∧ (∀ (pre rest : List SItem) (ct : String),
        d.structItems = pre ++ ⟨ct, SFail.bodyFail⟩ :: rest →
        (∀ it ∈ pre, it.mode = SFail.ok) →
        (chunkDocS1 u d).2.length = pre.length
          ∧ (chunkDocS2 u d).2 = [] ∧ chunkDocS3 u d = [])
    ∧ ((chunkDocS2 u d).2 ≠ [] → chunkDocS3 u d = []) := by
  refine ⟨?_, ?_, ?_⟩
  · intro jj hjj hc1 hfails hq
    have hcond : (chunkDocS1 u d).1 = 0 ∧ 0 < d.tables.length :=
      ⟨hc1, Nat.lt_of_le_of_lt (Nat.zero_le jj) hjj⟩
    have hmem := strategy2_mem_of_ok u d.binaryHash d.tables 0 (chunkDocS1 u d).1 jj hjj hfails hq
    have h2 : (chunkDocS2 u d).2 = (strategy2 u d.binaryHash d.tables 0 (chunkDocS1 u d).1).2 := by
      unfold chunkDocS2; rw [if_pos hcond]
    unfold chunkDoc
    refine List.mem_append.mpr (Or.inl (List.mem_append.mpr (Or.inr ?_)))
    rw [h2]
    simpa using hmem
  · intro pre rest ct hsplit hok
    have hlem := strategy1_okPrefix_bodyFail u d.binaryHash pre hok ct rest 0
    have hc1 : (chunkDocS1 u d).1 = pre.length + 1 := by
      unfold chunkDocS1; rw [hsplit]; rw [hlem.1]; omega
    have hlen : (chunkDocS1 u d).2.length = pre.length := by
      unfold chunkDocS1; rw [hsplit]; exact hlem.2
    have hc1ne : ¬ (chunkDocS1 u d).1 = 0 := by omega
    have h2 : chunkDocS2 u d = ((chunkDocS1 u d).1, []) := by
      unfold chunkDocS2
      rw [if_neg]
      intro hcond
      exact hc1ne hcond.1
    have h3 : chunkDocS3 u d = [] := by
      unfold chunkDocS3; rw [h2, if_neg hc1ne]
    exact ⟨hlen, by rw [h2], h3⟩
  · intro hne
    have hc2 : ¬ (chunkDocS2 u d).1 = 0 := by
      intro hc0
      by_cases hcond : (chunkDocS1 u d).1 = 0 ∧ 0 < d.tables.length
      · have h2 : chunkDocS2 u d = strategy2 u d.binaryHash d.tables 0 (chunkDocS1 u d).1 := by
          unfold chunkDocS2; rw [if_pos hcond]
        have hlen2 := strategy2_len_le u d.binaryHash d.tables 0 (chunkDocS1 u d).1
        rw [h2] at hne hc0
        have : (strategy2 u d.binaryHash d.tables 0 (chunkDocS1 u d).1).2.length = 0 := by omega
        exact hne (List.eq_nil_of_length_eq_zero this)
      · have h2 : chunkDocS2 u d = ((chunkDocS1 u d).1, []) := by
          unfold chunkDocS2; rw [if_neg hcond]
        rw [h2] at hne
        exact hne rfl
    unfold chunkDocS3
    rw [if_neg hc2]

/-- Document whose strategy 1 yields nothing, with one failing table
between two good ones. -/
def dEx3withTables : Doc :=
  { binaryHash := "ht"
    structItems := []
    tables :=
      [{ text := "premium and deductible amounts", fails := false },
        { text := "copay schedule by service tier", fails := false },
        { text := "", fails := true }]
    md := { content := "", fails := false } }

theorem claim_C5_amended_witness :
    ((dEx3withTables.tables.get ⟨1, by decide⟩).fails = false
      ∧ (uEx (dEx3withTables.binaryHash ++ "-table-" ++ toString 1),
          (dEx3withTables.tables.get ⟨1, by decide⟩).text) ∈ chunkDoc uEx dEx3withTables)
    ∧ ((chunkDocS1 uEx dEx5).2.length = 1
      ∧ (chunkDocS2 uEx dEx5).2 = [] ∧ chunkDocS3 uEx dEx5 = []) :=
  ⟨⟨by decide,
      (claim_C5_amended uEx dEx3withTables).1 1 (by decide) (by decide) (by decide)
        (by constructor <;> decide)⟩,
    (claim_C5_amended uEx dEx5).2.1
      [⟨"first chunk", SFail.ok⟩]
      [⟨"third chunk", SFail.ok⟩] "broken chunk" (by decide)
      (by intro it hit; simp at hit; rw [hit])⟩

/-- Document with nothing extractable: strategies 1 and 2 yield zero
chunks and the markdown export is under the 50-character floor. -/
def dEx9 : Doc :=
  { binaryHash := "h9"
    structItems := []
    tables := []
    md := { content := "too short", fails := false } }

/-- Claim C9: when strategies 1 and 2 both yield zero chunks, the
document-level fallback emits a single chunk only if the stripped
markdown export is longer than 50 characters; otherwise the document
yields no chunks at all and the ingestion loop skips it, the remaining
documents being processed unchanged. -/
theorem claim_C9 (u : String → String) (d : Doc)
    (h1 : (chunkDocS1 u d).2 = []) (h2 : (chunkDocS2 u d).2 = []) :
    (chunkDocS3 u d ≠ [] →
        50 < (pyStrip d.md.content).length ∧ (chunkDocS3 u d).length = 1)
    ∧ (¬ 50 < (pyStrip d.md.content).length →
        chunkDoc u d = []
        ∧ ∀ pre post : List Doc,
            ingestRun u (pre ++ d :: post) = ingestRun u pre ++ ingestRun u post) := by
  constructor
  · intro hne
    have hs3 : chunkDocS3 u d = strategy3 u d.binaryHash d.md := by
      unfold chunkDocS3
      by_cases hc : (chunkDocS2 u d).1 = 0
      · rw [if_pos hc]
      · exfalso
        apply hne
        unfold chunkDocS3
        rw [if_neg hc]
    rw [hs3] at hne ⊢
    rcases strategy3_cases u d.binaryHash d.md with hcase | hcase
    · exact absurd hcase hne
    · exact ⟨hcase.2.2, by rw [hcase.1]; rfl⟩
  · intro hshort
    have h3 : chunkDocS3 u d = [] := by
      unfold chunkDocS3
      by_cases hc : (chunkDocS2 u d).1 = 0
      · rw [if_pos hc]
        rcases strategy3_cases u d.binaryHash d.md with hcase | hcase
        · exact hcase
        · exact absurd hcase.2.2 hshort
      · rw [if_neg hc]
    have hall : chunkDoc u d = [] := by
      unfold chunkDoc
      rw [h1, h2, h3]
      rfl
    refine ⟨hall, ?_⟩
    intro pre post
    unfold ingestRun
    rw [List.filterMap_append, List.filterMap_cons]
    rw [hall]
    rfl

theorem claim_C9_witness :
    (chunkDocS1 uEx dEx9).2 = [] ∧ (chunkDocS2 uEx dEx9).2 = []
    ∧ ¬ 50 < (pyStrip dEx9.md.content).length
    ∧ chunkDoc uEx dEx9 = []
    ∧ ingestRun uEx ([dEx1] ++ dEx9 :: [dEx3])
        = ingestRun uEx [dEx1] ++ ingestRun uEx [dEx3] :=
  ⟨by decide, by decide, by decide,
    ((claim_C9 uEx dEx9 (by decide) (by decide)).2 (by decide)).1,
    ((claim_C9 uEx dEx9 (by decide) (by decide)).2 (by decide)).2 [dEx1] [dEx3]⟩

/-! ### Plan manifest service (src/plan_service.py)

PlanService.__init__ walks the manifest entries in order; for each entry
it assigns _plans[plan_id] = entry and, for each of the documents
of the entry, _hash_to_plan[str(binary_hash)] = plan_id.  Both are plain
dict assignments, so a key listed twice keeps the value written last. -/

structure PlanDoc where
  binary_hash : String
  filename : String
deriving DecidableEq, Repr

structure PlanEntry where
  plan_id : String
  plan_name : String
  documents : List PlanDoc
deriving DecidableEq, Repr

structure PlanManifest where
  entries : List PlanEntry
deriving DecidableEq, Repr

/-- The flattened (hash, plan_id) assignment sequence of __init__. -/
def hashPairs (m : PlanManifest) : List (String × String) :=
  m.entries.flatMap fun e => e.documents.map fun dc => (dc.binary_hash, e.plan_id)

/-- _hash_to_plan. -/
def hashToPlan (m : PlanManifest) : String → Option String :=
  dictUpdate (fun _ => none) (hashPairs m)

/-- _plans. -/
def plansMap (m : PlanManifest) : String → Option PlanEntry :=
  dictUpdate (fun _ => none) (m.entries.map fun e => (e.plan_id, e))

/-- PlanService.get_plan. -/
def getPlan (m : PlanManifest) (pid : String) : Option PlanEntry :=
  plansMap m pid

/-- PlanService.get_hashes. -/
def getHashes (m : PlanManifest) (pid : String) : List String :=
  match getPlan m pid with
  | none => []
  | some p => p.documents.map fun dc => dc.binary_hash

/-- PlanService.plan_for_hash. -/
def planForHash (m : PlanManifest) (h : String) : Option String :=
  hashToPlan m h

/-- PlanService.get_filename: plan_for_hash, then a linear scan of the
documents of the owning plan; also returns None when the looked-up plan id is
falsy (the empty string). -/
def getFilename (m : PlanManifest) (h : String) : Option String :=
  match planForHash m h with
  | none => none
  | some pid =>
    if pid = "" then none
    else
      match getPlan m pid with
      | none => none
      | some p => (p.documents.find? fun dc => dc.binary_hash == h).map fun dc => dc.filename

theorem find?_append_cases {α : Type} (l1 l2 : List α) (p : α → Bool) :
    (l1 ++ l2).find? p =
      match l1.find? p with
      | some x => some x
      | none => l2.find? p := by
  induction l1 with
  | nil => simp
  | cons a rest ih =>
    by_cases ha : p a
    · simp [List.find?, ha]
    · simp only [List.cons_append, List.find?]
      rw [Bool.of_not_eq_true ha]
      exact ih

theorem lastAssoc_append {α : Type} (l1 l2 : List (String × α)) (k : String) :
    lastAssoc (l1 ++ l2) k =
      match lastAssoc l2 k with
      | some v => some v
      | none => lastAssoc l1 k := by
  induction l1 with
  | nil =>
    simp only [List.nil_append, lastAssoc]
    cases lastAssoc l2 k <;> rfl
  | cons p rest ih =>
    simp only [List.cons_append, lastAssoc, List.append_eq]
    rw [ih]
    cases h2 : lastAssoc l2 k with
    | some v => rfl
    | none => cases hr : lastAssoc rest k <;> rfl

theorem lastAssoc_constPairs (h pid : String) (docs : List PlanDoc) :
    lastAssoc (docs.map fun dc => (dc.binary_hash, pid)) h
      = if docs.any (fun dc => dc.binary_hash == h) then some pid else none := by
  induction docs with
  | nil => simp [lastAssoc]
  | cons dc ds ih =>
    simp only [List.map_cons, lastAssoc, ih, List.any_cons]
    by_cases hds : ds.any (fun dc => dc.binary_hash == h) = true
    · simp [hds]
    · have hds2 : ds.any (fun dc => dc.binary_hash == h) = false :=
        Bool.of_not_eq_true hds
      by_cases hh : h = dc.binary_hash
      · subst hh
        simp [hds2]
      · have hbeq : (dc.binary_hash == h) = false := by
          simp only [beq_eq_false_iff_ne]
          exact fun he => hh he.symm
        simp [hds2, hbeq, hh]

/-- Claim C10: plan_for_hash resolves a document hash to the plan_id of
the LAST manifest entry listing it, each later mapping having overwritten
the earlier ones; a concrete manifest listing hash hd under planA and
then under planB resolves hd to planB. -/
theorem claim_C10 (m : PlanManifest) (h : String) :
    planForHash m h =
      (m.entries.reverse.find? fun e =>
          e.documents.any fun dc => dc.binary_hash == h).map PlanEntry.plan_id := by
  show dictUpdate (fun _ => none) (hashPairs m) h = _
  rw [dictUpdate_eq_lastAssoc]
  have hmain : ∀ entries : List PlanEntry,
      lastAssoc (entries.flatMap fun e =>
          e.documents.map fun dc => (dc.binary_hash, e.plan_id)) h
        = (entries.reverse.find? fun e =>
            e.documents.any fun dc => dc.binary_hash == h).map PlanEntry.plan_id := by
    intro entries
    induction entries with
    | nil => simp [lastAssoc]
    | cons e rest ih =>
      simp only [List.flatMap_cons, List.reverse_cons]
      rw [lastAssoc_append, ih, find?_append_cases]
      cases hfind : rest.reverse.find? fun e =>
          e.documents.any fun dc => dc.binary_hash == h with
      | some e2 => simp
      | none =>
        simp only [Option.map_none]
        rw [lastAssoc_constPairs h e.plan_id e.documents]
        by_cases hany : e.documents.any (fun dc => dc.binary_hash == h) = true
        · simp [List.find?, hany]
        · rw [if_neg hany]
          simp only [List.find?]
          rw [Bool.of_not_eq_true hany]
          rfl
  unfold hashPairs
  rw [hmain m.entries]
  cases (m.entries.reverse.find? fun e =>
      e.documents.any fun dc => dc.binary_hash == h).map PlanEntry.plan_id <;> rfl

/-! ### Search points and the visual grounding endpoint
(src/hybrid_search.py, src/service.py)

A stored point is its payload (we keep the fields the endpoint reads).
The relevance ordering the store would assign to a query is an input
list `ranked`: qdrant query_points applies the optional payload filter
inside the query, then truncates to `limit`. -/

structure BBoxQ where
  l : ℚ
  t : ℚ
  r : ℚ
  b : ℚ
deriving DecidableEq, Repr

structure ProvRec where
  page_no : Int
  bbox : BBoxQ
deriving DecidableEq, Repr

structure DocItem where
  prov : List ProvRec
deriving DecidableEq, Repr

structure OriginRec where
  binary_hash : Option String
deriving DecidableEq, Repr

structure PayloadRec where
  origin : Option OriginRec
  text : Option String
  document : Option String
  headings : List String
  doc_items : List DocItem
deriving DecidableEq, Repr

structure Point where
  payload : Option PayloadRec
deriving DecidableEq, Repr

/-- dl.get("text", dl.get("document", "")): the text field, falling back
to the legacy document field, then to the empty string. -/
def payloadText (p : PayloadRec) : String :=
  match p.text with
  | some s => s
  | none =>
    match p.document with
    | some s => s
    | none => ""

/-- The hash allow-list test.  It is both the qdrant FieldCondition on
origin.binary_hash with MatchAny (hybrid_search.py) and the safe
point-by-point filter of the endpoint (service.py lines 70-78): a point
with no payload, no origin record or no fingerprint matches nothing. -/
def matchesHashes (hs : List String) (pt : Point) : Bool :=
  match pt.payload with
  | none => false
  | some p =>
    match p.origin with
    | none => false
    | some o =>
      match o.binary_hash with
      | none => false
      | some bh => hs.contains bh

/-- query_points: filter pushed into the query, then the limit. -/
def queryPoints (ranked : List Point) (qfilter : Option (Point → Bool))
    (limit : Nat) : List Point :=
  (match qfilter with
    | none => ranked
    | some f => ranked.filter f).take limit

/-- HybridSearcher.visual_grounding: builds a qdrant filter from
plan_hashes when that argument is truthy (not None and not empty), and
runs the fused query with it pushed down. -/
def searcherVisualGrounding (ranked : List Point) (limit : Nat)
    (plan_hashes : Option (List String)) : List Point :=
  let qfilter : Option (Point → Bool) :=
    match plan_hashes with
    | none => none
    | some hs => if hs.isEmpty then none else some (matchesHashes hs)
  queryPoints ranked qfilter limit

structure GroundedResult where
  text : String
  binary_hash : String
  plan_id : Option String
  plan_name : String
  headings : List String
  provs : List ProvRec
  annotate_page : Int
  annotate_boxes : List BBoxQ
deriving DecidableEq, Repr

/-- One iteration of the result loop of the endpoint (service.py lines
81-137): skip the point when the payload, the origin record or the
fingerprint is missing, otherwise resolve the plan identity and collect
the provenance records into page/boxes. -/
def buildResult (m : PlanManifest) (pt : Point) : Option GroundedResult :=
  match pt.payload with
  | none => none
  | some dl =>
    match dl.origin with
    | none => none
    | some o =>
      match o.binary_hash with
      | none => none
      | some bh =>
        let pid := planForHash m bh
        let plan_name :=
          match pid with
          | none => ""
          | some pid2 =>
            match getPlan m pid2 with
            | none => ""
            | some e => e.plan_name
        let provs := dl.doc_items.flatMap fun it => it.prov
        let page_num :=
          match provs with
          | [] => 0
          | pr :: _ => pr.page_no
        some
          { text := payloadText dl
            binary_hash := bh
            plan_id := pid
            plan_name := plan_name
            headings := dl.headings
            provs := provs
            annotate_page := page_num
            annotate_boxes := provs.map fun pr => pr.bbox }

def buildResults (m : PlanManifest) (pts : List Point) : List GroundedResult :=
  pts.filterMap (buildResult m)

/-- The /api/visual_grounding endpoint: fetch the top-k points WITHOUT
passing plan_hashes to the searcher, then, when a plan filter was
requested (plan_id truthy), 404 on an unknown plan and otherwise drop
the points whose fingerprint is outside the plan allow-list, and build
the result records. -/
def serviceVisualGrounding (m : PlanManifest) (ranked : List Point)
    (plan_id : Option String) (k : Nat) : Except String (List GroundedResult) :=
  let points := searcherVisualGrounding ranked k none
  match plan_id with
  | none => Except.ok (buildResults m points)
  | some pid =>
    if pid = "" then Except.ok (buildResults m points)
    else
      match getPlan m pid with
      | none => Except.error ("Unknown plan_id " ++ pid)
      | some _ =>
        Except.ok (buildResults m (points.filter (matchesHashes (getHashes m pid))))

/-! ### Example inputs for the query path -/

/-- A well-formed point carrying fingerprint s. -/
def ptH (s : String) : Point :=
  { payload := some
      { origin := some { binary_hash := some s }
        text := some (s ++ " passage")
        document := none
        headings := []
        doc_items := [] } }

/-- A point whose payload lacks the origin record. -/
def ptNoOrigin : Point :=
  { payload := some
      { origin := none
        text := some "orphan passage"
        document := none
        headings := []
        doc_items := [] } }

def mEx : PlanManifest :=
  { entries :=
      [{ plan_id := "planA"
         plan_name := "Plan A"
         documents := [⟨"h1", "doc1.json"⟩, ⟨"h2", "doc2.json"⟩] }] }

/-- Ranked answer where the only plan-A point sits at rank 2. -/
def rankedEx : List Point := [ptH "h3", ptH "h1"]

/-- Ranked answer of the C7 example: fingerprints h1 then h3. -/
def rankedC7 : List Point := [ptH "h1", ptH "h3"]

/-- Claim C3 counterexample: with plan planA (hashes h1, h2), the store
ordering rankedEx holding one matching point, and limit 1, the endpoint
returns zero hits even though one matching point exists: the plan filter
is applied after the unfiltered top-1 query, whose single point carries
h3. -/
theorem claim_C3_counterexample :
    1 ≤ (rankedEx.filter (matchesHashes (getHashes mEx "planA"))).length
    ∧ serviceVisualGrounding mEx rankedEx (some "planA") 1
        = Except.ok [] := by
  constructor
  · decide
  · rfl

/-- Claim C3 as amended: the endpoint applies the plan allow-list to the
top-k points AFTER the unfiltered similarity query, so it can return
fewer than limit hits although enough matching points exist; the
searcher itself supports pushdown — given plan_hashes it filters inside
the query and returns exactly limit points whenever at least limit
matching points exist — but the endpoint never passes them. -/
theorem claim_C3_amended :
    (∀ (ranked : List Point) (hs : List String) (k : Nat),
        hs.isEmpty = false →
        k ≤ (ranked.filter (matchesHashes hs)).length →
        (searcherVisualGrounding ranked k (some hs)).length = k)
    ∧ (∀ (m : PlanManifest) (ranked : List Point) (pid : String) (k : Nat),
        pid ≠ "" → (getPlan m pid).isSome →
        serviceVisualGrounding m ranked (some pid) k
          = Except.ok (buildResults m
              ((searcherVisualGrounding ranked k none).filter
                (matchesHashes (getHashes m pid))))) := by
  constructor
  · intro ranked hs k hne hk
    have hform : searcherVisualGrounding ranked k (some hs)
        = (ranked.filter (matchesHashes hs)).take k := by
      simp [searcherVisualGrounding, queryPoints, hne]
    rw [hform, List.length_take]
    omega
  · intro m ranked pid k hpid hplan
    obtain ⟨e, hp⟩ := Option.isSome_iff_exists.mp hplan
    simp [serviceVisualGrounding, hpid, hp]

theorem claim_C3_amended_witness :
    (searcherVisualGrounding rankedEx 1 (some (getHashes mEx "planA"))).length = 1
    ∧ serviceVisualGrounding mEx rankedEx (some "planA") 1
        = Except.ok (buildResults mEx
            ((searcherVisualGrounding rankedEx 1 none).filter
              (matchesHashes (getHashes mEx "planA")))) :=
  ⟨claim_C3_amended.1 rankedEx (getHashes mEx "planA") 1 (by decide) (by decide),
    claim_C3_amended.2 mEx rankedEx "planA" 1 (by decide) (by decide)⟩

/-- Claim C7: with a plan filter the endpoint keeps exactly the hits
whose payload fingerprint lies in the plan allow-list, in their
original order (the kept points form a sublist); on the concrete example
(plan owning h1 and h2; raw hits h1 then h3) only the h1 hit comes
back. -/
theorem claim_C7 :
    (∀ (m : PlanManifest) (ranked : List Point) (pid : String) (k : Nat),
        pid ≠ "" → (getPlan m pid).isSome →
        ∃ kept,
          serviceVisualGrounding m ranked (some pid) k
              = Except.ok (buildResults m kept)
          ∧ kept.Sublist (searcherVisualGrounding ranked k none)
          ∧ ∀ pt, pt ∈ kept ↔
              pt ∈ searcherVisualGrounding ranked k none
                ∧ matchesHashes (getHashes m pid) pt = true)
    ∧ (serviceVisualGrounding mEx rankedC7 (some "planA") 3).map
        (fun rs => rs.map fun r => r.binary_hash) = Except.ok ["h1"] := by
  constructor
  · intro m ranked pid k hpid hplan
    refine ⟨(searcherVisualGrounding ranked k none).filter
        (matchesHashes (getHashes m pid)), ?_, List.filter_sublist _, ?_⟩
    · obtain ⟨e, hp⟩ := Option.isSome_iff_exists.mp hplan
      simp [serviceVisualGrounding, hpid, hp]
    · intro pt
      exact List.mem_filter
  · rfl

theorem claim_C7_witness :
    ∃ kept,
      serviceVisualGrounding mEx rankedC7 (some "planA") 3
          = Except.ok (buildResults mEx kept)
      ∧ kept.Sublist (searcherVisualGrounding rankedC7 3 none)
      ∧ ∀ pt, pt ∈ kept ↔
          pt ∈ searcherVisualGrounding rankedC7 3 none
            ∧ matchesHashes (getHashes mEx "planA") pt = true :=
  claim_C7.1 mEx rankedC7 "planA" 3 (by decide) (by decide)

/-- Claim C8: a hit whose payload is missing, lacks an origin record or
lacks a fingerprint contributes nothing to the result list and the
remaining hits are returned unchanged — one malformed payload never
aborts the result set (buildResults is total: nothing is raised). -/
theorem claim_C8 (m : PlanManifest) (pre post : List Point) (pt : Point)
    (hmal : pt.payload = none
      ∨ (∃ p, pt.payload = some p ∧ p.origin = none)
      ∨ (∃ p o, pt.payload = some p ∧ p.origin = some o ∧ o.binary_hash = none)) :
    buildResults m (pre ++ pt :: post) = buildResults m pre ++ buildResults m post := by
  have hnone : buildResult m pt = none := by
    rcases hmal with h0 | ⟨p, hp, ho⟩ | ⟨p, o, hp, ho, hb⟩
    · simp [buildResult, h0]
    · simp [buildResult, hp, ho]
    · simp [buildResult, hp, ho, hb]
  unfold buildResults
  rw [List.filterMap_append, List.filterMap_cons, hnone]

theorem claim_C8_witness :
    buildResults mEx ([ptH "h1"] ++ ptNoOrigin :: [ptH "h3"])
      = buildResults mEx [ptH "h1"] ++ buildResults mEx [ptH "h3"] :=
  claim_C8 mEx [ptH "h1"] [ptH "h3"] ptNoOrigin
    (Or.inr (Or.inl ⟨_, rfl, rfl⟩))

/-! ### Page annotation (src/service.py, annotate_result)

The stored document keeps what the endpoint reads: an optional pages
mapping — DoclingDocument.pages is a Dict[int, PageItem] keyed by the
1-based page number, modelled as an association list with unique keys —
each page with an optional rendered image (page.image together with
page.image.pil_image: present exactly when a renderable image exists)
and an optional declared size whose width/height may each be missing.

The page access sits in a try/except catching only IndexError and
TypeError.  A dict access with a missing key raises KeyError, which
that clause does not catch, so the exception escapes the endpoint and
the framework answers with its generic 500 response; only the explicit
pre-checks (pages is None, negative index) reach the distinct
invalid-page HTTPException.  The escaped KeyError is the uncaughtKeyError
outcome below.

PIL draw.rectangle is modelled by recording the projected integer
rectangle; colors cycle through a fixed palette and do not affect
geometry. -/

structure PageImage where
  width : Nat
  height : Nat
deriving DecidableEq, Repr

structure PageSize where
  width : Option ℚ
  height : Option ℚ
deriving DecidableEq, Repr

structure Page where
  image : Option PageImage
  size : Option PageSize
deriving DecidableEq, Repr

structure StoredDoc where
  pages : Option (List (Int × Page))
deriving DecidableEq, Repr

/-- Python dict lookup doc.pages[p] over the pages mapping; none stands
for the KeyError a dict raises on a missing key. -/
def lookupPage (pages : List (Int × Page)) (p : Int) : Option Page :=
  (pages.find? fun kv => kv.1 == p).map fun kv => kv.2

structure AnnotateRequest where
  binary_hash : String
  page : Int
  boxes : List BBoxQ
deriving DecidableEq, Repr

/-- The failure outcomes of the endpoint: the four raised HTTPExceptions,
plus the KeyError of a missing page key that escapes the
except (IndexError, TypeError) clause uncaught. -/
inductive AnnotateError where
  | docNotFound (h : String)
  | invalidPage (p : Int)
  | missingImage
  | invalidGeometry
  | uncaughtKeyError (p : Int)
deriving DecidableEq, Repr

/-- The HTTP status and message of each outcome: the HTTPExceptions carry
their distinct detail strings; the uncaught KeyError surfaces as the
framework generic 500 response. -/
def statusOf : AnnotateError → Nat × String
  | AnnotateError.docNotFound h => (404, "Document not found for hash " ++ h)
  | AnnotateError.invalidPage p => (400, "Page " ++ toString p ++ " invalid or out of range")
  | AnnotateError.missingImage => (500, "Page image data is missing")
  | AnnotateError.invalidGeometry => (500, "Page size data is missing or invalid")
  | AnnotateError.uncaughtKeyError _ => (500, "Internal Server Error")

structure RenderedImage where
  width : Nat
  height : Nat
  rects : List (Int × Int × Int × Int)
deriving DecidableEq, Repr

/-- The per-box projection of annotate_result: the box corners are in
document coordinates with origin bottom-left, the pixel rectangle grows
by the fixed inset and is rounded outward (floor on left/top, ceil on
right/bottom).  In the endpoint the inset is PAD + LINE_WIDTH = 10. -/
def projectBox (inset sx sy imgH : ℚ) (b : BBoxQ) : Int × Int × Int × Int :=
  (⌊b.l * sx - inset⌋,
    ⌊imgH - b.t * sy - inset⌋,
    ⌈b.r * sx + inset⌉,
    ⌈imgH - b.b * sy + inset⌉)

/-- The /api/annotate_result endpoint. -/
def annotateResult (m : PlanManifest) (docStore : String → StoredDoc)
    (req : AnnotateRequest) : Except AnnotateError RenderedImage :=
  match getFilename m req.binary_hash with
  | none => Except.error (AnnotateError.docNotFound req.binary_hash)
  | some fn =>
    match (docStore fn).pages with
    | none => Except.error (AnnotateError.invalidPage req.page)
    | some pages =>
      if req.page < 0 then Except.error (AnnotateError.invalidPage req.page)
      else
        match lookupPage pages req.page with
        | none => Except.error (AnnotateError.uncaughtKeyError req.page)
        | some page =>
          match page.image with
          | none => Except.error AnnotateError.missingImage
          | some img =>
            match page.size with
            | none => Except.error AnnotateError.invalidGeometry
            | some sz =>
              match sz.width, sz.height with
              | some w, some hgt =>
                if w = 0 ∨ hgt = 0 then Except.error AnnotateError.invalidGeometry
                else
                  Except.ok
                    { width := img.width
                      height := img.height
                      rects := req.boxes.map
                        (projectBox 10 ((img.width : ℚ) / w)
                          ((img.height : ℚ) / hgt) (img.height : ℚ)) }
              | _, _ => Except.error AnnotateError.invalidGeometry

/-- Claim C4: the projection formulas and the worked example — a
600 by 800 unit page rendered at 1200 by 1600 pixels (scale two on both
axes) maps the box (l 100, t 700, r 200, b 600) with zero padding to the
pixel rectangle (200, 200, 400, 400). -/
theorem claim_C4 :
    (∀ (inset sx sy imgH : ℚ) (b : BBoxQ),
        projectBox inset sx sy imgH b
          = (⌊b.l * sx - inset⌋,
              ⌊imgH - b.t * sy - inset⌋,
              ⌈b.r * sx + inset⌉,
              ⌈imgH - b.b * sy + inset⌉))
    ∧ projectBox 0 ((1200 : ℚ) / 600) ((1600 : ℚ) / 800) 1600
        { l := 100, t := 700, r := 200, b := 600 }
        = (200, 200, 400, 400) :=
  ⟨fun _ _ _ _ _ => rfl, by norm_num [projectBox]⟩

/-! ### Example inputs for the annotator -/

def pageOk : Page :=
  { image := some { width := 1200, height := 1600 }
    size := some { width := some 600, height := some 800 } }

def pageNoImg : Page :=
  { image := none
    size := some { width := some 600, height := some 800 } }

def pageBadGeom : Page :=
  { image := some { width := 1200, height := 1600 }
    size := some { width := some 0, height := some 800 } }

/-- Example stored document: pages dict keyed 1-based as in docling
exports. -/
def docEx : StoredDoc :=
  { pages := some [(1, pageOk), (2, pageNoImg), (3, pageBadGeom)] }

def dsEx : String → StoredDoc := fun _ => docEx

/-- Claim C6 counterexample: requesting page 7 of a document whose pages
dict holds keys 1..3 does NOT produce the distinct invalid-page error
the claim asserts: doc.pages is a dict, so the access raises KeyError,
which except (IndexError, TypeError) does not catch, and the request
dies with the framework generic 500 response. -/
theorem claim_C6_counterexample :
    annotateResult mEx dsEx { binary_hash := "h1", page := 7, boxes := [] }
        = Except.error (AnnotateError.uncaughtKeyError 7)
    ∧ annotateResult mEx dsEx { binary_hash := "h1", page := 7, boxes := [] }
        ≠ Except.error (AnnotateError.invalidPage 7)
    ∧ statusOf (AnnotateError.uncaughtKeyError 7) = (500, "Internal Server Error") := by
  refine ⟨rfl, ?_, by decide⟩
  intro h
  have h2 : (Except.error (AnnotateError.uncaughtKeyError 7)
        : Except AnnotateError RenderedImage)
      = Except.error (AnnotateError.invalidPage 7) := h
  exact AnnotateError.noConfusion (Except.error.inj h2)

/-- Claim C6 as amended: failure conditions of the annotate operation,
as the code actually reports them, and no partly rendered image is ever
returned.  A missing pages structure or a negative page index yields the
distinct invalid-page error; a non-negative page index absent from the
pages dict raises a KeyError that escapes the handler (which catches
only IndexError and TypeError) and surfaces as a generic 500, NOT as the
distinct invalid-page error; a present page without a renderable image
yields the distinct missing-image error; a present page with missing or
zero declared width/height yields the distinct invalid-geometry error;
the distinct statuses are pairwise different and differ from the
generic crash response; a success carries one drawn rectangle per
requested box. -/
theorem claim_C6_amended (m : PlanManifest) (ds : String → StoredDoc)
    (req : AnnotateRequest) (fn : String)
    (hfile : getFilename m req.binary_hash = some fn) :
    ((ds fn).pages = none →
        annotateResult m ds req = Except.error (AnnotateError.invalidPage req.page))
    ∧ (∀ pages, (ds fn).pages = some pages → req.page < 0 →
        annotateResult m ds req = Except.error (AnnotateError.invalidPage req.page))
    ∧ (∀ pages, (ds fn).pages = some pages → ¬ req.page < 0 →
        lookupPage pages req.page = none →
        annotateResult m ds req = Except.error (AnnotateError.uncaughtKeyError req.page))
    ∧ (∀ pages page, (ds fn).pages = some pages →
        lookupPage pages req.page = some page → ¬ req.page < 0 →
        page.image = none →
        annotateResult m ds req = Except.error AnnotateError.missingImage)
    ∧ (∀ pages page img, (ds fn).pages = some pages →
        lookupPage pages req.page = some page → ¬ req.page < 0 →
        page.image = some img →
        (page.size = none
          ∨ ∃ sz, page.size = some sz
              ∧ (sz.width = none ∨ sz.height = none
                  ∨ sz.width = some 0 ∨ sz.height = some 0)) →
        annotateResult m ds req = Except.error AnnotateError.invalidGeometry)
    ∧ ((statusOf (AnnotateError.invalidPage req.page)).1 = 400
        ∧ statusOf (AnnotateError.invalidPage req.page) ≠ statusOf AnnotateError.missingImage
        ∧ statusOf (AnnotateError.invalidPage req.page) ≠ statusOf AnnotateError.invalidGeometry
        ∧ statusOf AnnotateError.missingImage ≠ statusOf AnnotateError.invalidGeometry
        ∧ statusOf (AnnotateError.uncaughtKeyError req.page)
            ≠ statusOf (AnnotateError.invalidPage req.page))
    ∧ (∀ img, annotateResult m ds req = Except.ok img →
        img.rects.length = req.boxes.length) := by
  refine ⟨?_, ?_, ?_, ?_, ?_,
    ⟨rfl, by simp [statusOf], by simp [statusOf], by simp [statusOf], by simp [statusOf]⟩, ?_⟩
  · intro hpages
    simp [annotateResult, hfile, hpages]
  · intro pages hpages hneg
    simp [annotateResult, hfile, hpages, hneg]
  · intro pages hpages hneg hlook
    simp [annotateResult, hfile, hpages, hneg, hlook]
  · intro pages page hpages hlook hneg himg
    simp [annotateResult, hfile, hpages, hneg, hlook, himg]
  · intro pages page img hpages hlook hneg himg hbad
    rcases hbad with hsz | ⟨sz, hsz, hfield⟩
    · simp [annotateResult, hfile, hpages, hneg, hlook, himg, hsz]
    · rcases hw : sz.width with _ | w
      · simp [annotateResult, hfile, hpages, hneg, hlook, himg, hsz, hw]
      · rcases hh : sz.height with _ | hgt
        · simp [annotateResult, hfile, hpages, hneg, hlook, himg, hsz, hw, hh]
        · have hzero : w = 0 ∨ hgt = 0 := by
            rcases hfield with hf | hf | hf | hf
            · rw [hf] at hw; cases hw
            · rw [hf] at hh; cases hh
            · rw [hf] at hw; exact Or.inl (Option.some.inj hw).symm
            · rw [hf] at hh; exact Or.inr (Option.some.inj hh).symm
          simp [annotateResult, hfile, hpages, hneg, hlook, himg, hsz, hw, hh, hzero]
  · intro img h
    rcases hpages : (ds fn).pages with _ | pages
    · simp [annotateResult, hfile, hpages] at h
    by_cases hneg : req.page < 0
    · simp [annotateResult, hfile, hpages, hneg] at h
    rcases hlook : lookupPage pages req.page with _ | page
    · simp [annotateResult, hfile, hpages, hneg, hlook] at h
    rcases himg : page.image with _ | img2
    · simp [annotateResult, hfile, hpages, hneg, hlook, himg] at h
    rcases hsz : page.size with _ | sz
    · simp [annotateResult, hfile, hpages, hneg, hlook, himg, hsz] at h
    rcases hw : sz.width with _ | w
    · simp [annotateResult, hfile, hpages, hneg, hlook, himg, hsz, hw] at h
    rcases hh : sz.height with _ | hgt
    · simp [annotateResult, hfile, hpages, hneg, hlook, himg, hsz, hw, hh] at h
    by_cases hz : w = 0 ∨ hgt = 0
    · simp [annotateResult, hfile, hpages, hneg, hlook, himg, hsz, hw, hh, hz] at h
    · simp only [annotateResult, hfile, hpages, hneg, hlook, himg, hsz, hw, hh] at h
      rw [if_neg hz] at h
      rcases h with ⟨rfl⟩
      simp

theorem claim_C6_amended_witness :
    getFilename mEx "h1" = some "doc1.json"
    ∧ annotateResult mEx dsEx { binary_hash := "h1", page := -1, boxes := [] }
        = Except.error (AnnotateError.invalidPage (-1))
    ∧ annotateResult mEx dsEx { binary_hash := "h1", page := 7, boxes := [] }
        = Except.error (AnnotateError.uncaughtKeyError 7)
    ∧ annotateResult mEx dsEx { binary_hash := "h1", page := 2, boxes := [] }
        = Except.error AnnotateError.missingImage
    ∧ annotateResult mEx dsEx { binary_hash := "h1", page := 3, boxes := [] }
        = Except.error AnnotateError.invalidGeometry
    ∧ statusOf (AnnotateError.invalidPage 2) ≠ statusOf AnnotateError.missingImage :=
  ⟨by decide,
    (claim_C6_amended mEx dsEx { binary_hash := "h1", page := -1, boxes := [] } "doc1.json"
        (by decide)).2.1 [(1, pageOk), (2, pageNoImg), (3, pageBadGeom)]
      (by decide) (by decide),
    (claim_C6_amended mEx dsEx { binary_hash := "h1", page := 7, boxes := [] } "doc1.json"
        (by decide)).2.2.1 [(1, pageOk), (2, pageNoImg), (3, pageBadGeom)]
      (by decide) (by decide) (by decide),
    (claim_C6_amended mEx dsEx { binary_hash := "h1", page := 2, boxes := [] } "doc1.json"
        (by decide)).2.2.2.1 [(1, pageOk), (2, pageNoImg), (3, pageBadGeom)] pageNoImg
      (by decide) (by decide) (by decide) (by decide),
    (claim_C6_amended mEx dsEx { binary_hash := "h1", page := 3, boxes := [] } "doc1.json"
        (by decide)).2.2.2.2.1 [(1, pageOk), (2, pageNoImg), (3, pageBadGeom)] pageBadGeom
      { width := 1200, height := 1600 } (by decide) (by decide) (by decide) (by decide)
      (Or.inr ⟨{ width := some 0, height := some 800 }, by decide,
        Or.inr (Or.inr (Or.inl (by decide)))⟩),
    (claim_C6_amended mEx dsEx { binary_hash := "h1", page := 2, boxes := [] } "doc1.json"
        (by decide)).2.2.2.2.2.1.2.1⟩

end MedicareBot
